import Mathlib

/-
Verification of the audit-event classification and aggregation engine of
github-audit-alerter (main.go) against its natural-language specification.

The Go source is shallowly embedded below: each definition mirrors one
function or code region of main.go.  Timestamps are modelled as integers
(`time.Time` compared with `Before`/`!Before` becomes `<` / `≤` on `Int`);
Go maps used as sets become lists with `contains`; the compiled regular
expressions of `webEvents` become an executable matcher for the pattern
language actually used (literals, `.`, `*`), with the `strings.Join(_, "|")`
empty-list behaviour modelled explicitly.
-/

namespace GithubAuditAlerter

/-- Model of the fields of `github.AuditEntry` that main.go reads.  The Go
getters (`GetActor`, `GetAction`, `GetTimestamp`, `GetRepo`,
`GetRepository`, `GetRepositoryPublic`, `GetOrg`) return the zero value for
absent fields, so absent fields are the defaults here. -/
structure AuditEntry where
  actor : String := ""
  action : String := ""
  timestamp : Int := 0
  repo : String := ""
  repository : String := ""
  repositoryPublic : Bool := false
  org : String := ""
deriving DecidableEq, Repr

/-- Model of the `Settings` struct of main.go (lines 171-182).  `Since` and
`MaxClonesSince` are instants; `MaxClonedRepos` is a Go `int`, hence `Int`. -/
structure Settings where
  since : Int := 0
  maxClonesSince : Int := 0
  org : String := ""
  botNames : List String := []
  globalIgnoreActions : List String := []
  nonCriticalIgnoreActions : List String := []
  criticalRepos : List String := []
  maxClonedRepos : Int := 0
deriving DecidableEq, Repr

/-- One regex atom of the pattern language used by the ignore lists:
`.` matches any character except newline (Go regexp `.`), any other
character matches itself literally. -/
def atomMatch (p c : Char) : Bool :=
  if p == '.' then c != '\n' else p == c

/-- Executable matcher for one anchored pattern (`^pat$`) over the pattern
language of the configured ignore lists: literal characters, `.`, and a
postfix star `*` applied to the preceding atom.  The first argument is an
evaluation bound that keeps the recursion structural; every recursive call
strictly decreases `pat.length + s.length`, so a starting fuel of
`pat.length + s.length` (see `reMatch`) is always sufficient and the
fuel-exhausted branch is never taken. -/
def reMatchF : Nat → List Char → List Char → Bool
  | _, [], s => s.isEmpty
  | 0, _ :: _, _ => false
  | fuel + 1, p :: '*' :: ps, [] =>
    let _ := p
    reMatchF fuel ps []
  | fuel + 1, p :: '*' :: ps, c :: cs =>
    reMatchF fuel ps (c :: cs) || (atomMatch p c && reMatchF fuel (p :: '*' :: ps) cs)
  | _ + 1, _ :: _, [] => false
  | fuel + 1, p :: ps, c :: cs => atomMatch p c && reMatchF fuel ps cs

/-- Whole-string match of one pattern against one action string. -/
def reMatch (pat s : List Char) : Bool :=
  reMatchF (pat.length + s.length) pat s

/-- Model of compiling a pattern list as main.go lines 187-197 do —
`regexp.MustCompile(strings.Join(["^p1$", "^p2$", ...], "|"))` — and then
calling `MatchString`.  Each alternative is anchored, so the alternation
matches iff some pattern matches the whole string; joining the EMPTY list
yields the empty regular expression, which matches every string. -/
def matchString (pats : List String) (a : String) : Bool :=
  if pats.isEmpty then true
  else pats.any fun p => reMatch p.toList a.toList

/-- Model of Go `strings.HasSuffix`. -/
def hasSuffix (s suf : String) : Bool :=
  List.isSuffixOf suf.toList s.toList

/-- Model of `isBot` (main.go lines 233-240): the actor string ends with any
of the configured bot-name patterns. -/
def isBot (s : String) (botNames : List String) : Bool :=
  botNames.any fun b => hasSuffix s b

/-- Model of Go `strings.Contains(s, c)` for a one-character needle. -/
def containsChar (s : String) (c : Char) : Bool :=
  s.toList.contains c

/-- Model of the critical-repo set construction of `webEvents` (main.go
lines 205-212): configured names containing `/` are kept verbatim, bare
names are qualified as `org/name` with the run's organization. -/
def criticalSet (s : Settings) : List String :=
  s.criticalRepos.map fun r =>
    if containsChar r '/' then r else s.org ++ "/" ++ r

/-- Outcome of the per-record decision of the `webEvents` loop (main.go
lines 214-228), tagged by which check dropped the record. -/
inductive Classification where
  | suppressedUniversal
  | suppressedNonCritical
  | suppressedBot
  | alert
deriving DecidableEq, Repr

/-- Model of the per-record decision of the `webEvents` loop (main.go lines
214-228): universal ignore first, then the non-critical ignore guarded by
`!critical[a.GetRepo()]` — the lookup key is the record's `repo` field,
verbatim — then the bot filter; otherwise the record is a match. -/
def classify (s : Settings) (a : AuditEntry) : Classification :=
  if matchString s.globalIgnoreActions a.action then .suppressedUniversal
  else if !(criticalSet s).contains a.repo && matchString s.nonCriticalIgnoreActions a.action then
    .suppressedNonCritical
  else if isBot a.actor s.botNames then .suppressedBot
  else .alert

/-- The matches accumulated by `webEvents` over a fetched audit list: the
records the loop does not `continue` past. -/
def webEventsFilter (s : Settings) (audit : List AuditEntry) : List AuditEntry :=
  audit.filter fun a => decide (classify s a = Classification.alert)

/-- Model of the location string computed by `auditMsg` (main.go lines
363-375): prefer the `repo` field, fall back to `repository` when `repo` is
empty; a name with a slash is used as is, a bare name is qualified with the
RECORD's `org` field; when both fields are empty the location is the org. -/
def auditMsgLocation (a : AuditEntry) : String :=
  let repo := if a.repo == "" then a.repository else a.repo
  if repo == "" then a.org
  else if containsChar repo '/' then repo
  else a.org ++ "/" ++ repo

/-- Modelled from the spec (4.1 step b), for comparison with the code:
"prefer `repository`, fall back to `repo`, qualify bare names with the
run's org".  This is the identity the spec says both the classifier and the
formatter use; it is NOT what main.go computes. -/
def specRepoIdentity (org : String) (a : AuditEntry) : String :=
  let r := if a.repository == "" then a.repo else a.repository
  if r == "" then ""
  else if containsChar r '/' then r
  else org ++ "/" ++ r

/-- Model of Go `path/filepath.Base` for slash-separated paths (main.go line
279): empty path gives `.`, trailing slashes are dropped, the final path
segment is returned, an all-slash path gives `/`. -/
def filepathBase (path : String) : String :=
  if path == "" then "."
  else
    let cs := (path.toList.reverse.dropWhile fun c => c == '/').takeWhile fun c => c != '/'
    if cs.isEmpty then "/" else String.mk cs.reverse

/-- The filter of the first `cloneEvents` loop (main.go lines 253-264): the
action is exactly `git.clone`, the repository is private, the actor is not
a bot. -/
def qualifies (s : Settings) (a : AuditEntry) : Bool :=
  a.action == "git.clone" && !a.repositoryPublic && !isBot a.actor s.botNames

/-- The reporting walk of `cloneEvents` for one flagged actor (main.go lines
286-297): events strictly before `Since` are skipped (and do not touch the
`seen` map); otherwise the event is emitted when its `repo` field has not
been seen, and its `repo` field is marked seen. -/
def emitLoop (since : Int) : List AuditEntry → List String → List AuditEntry
  | [], _ => []
  | e :: es, seen =>
    if e.timestamp < since then emitLoop since es seen
    else if seen.contains e.repo then emitLoop since es seen
    else e :: emitLoop since es (e.repo :: seen)

/-- Keep the first occurrence per `repo` field, given an initial set of
already-seen `repo` names.  This is the spec-side description of the
reporting dedup (spec 4.3 step 4), to be compared with `emitLoop`. -/
def dedupFirstByRepo : List AuditEntry → List String → List AuditEntry
  | [], _ => []
  | e :: es, seen =>
    if seen.contains e.repo then dedupFirstByRepo es seen
    else e :: dedupFirstByRepo es (e.repo :: seen)

/-- The distinct-repository count of `cloneEvents` (main.go lines 276-281):
the number of distinct `filepath.Base` values of the events' `repository`
fields (the Go `repos` map's size). -/
def distinctBaseCount (events : List AuditEntry) : Nat :=
  ((events.map fun e => filepathBase e.repository).dedup).length

/-- The output `cloneEvents` produces for one actor's grouped event list
(main.go lines 285-298): if the distinct-base count reaches
`MaxClonedRepos`, the reporting walk runs with an empty `seen` map,
otherwise nothing is emitted. -/
def actorOutput (s : Settings) (events : List AuditEntry) : List AuditEntry :=
  if s.maxClonedRepos ≤ (distinctBaseCount events : Int) then
    emitLoop s.since events []
  else []

/-- The actors appearing among the qualifying records, in first-appearance
order (one linearization of the Go map's unspecified iteration order). -/
def cloneActors (s : Settings) (audit : List AuditEntry) : List String :=
  ((audit.filter (qualifies s)).map AuditEntry.actor).dedup

/-- The full `cloneEvents` result over a fetched audit list: group the
qualifying records by actor (grouping preserves input order within each
actor) and concatenate each actor's output. -/
def cloneEventsOutput (s : Settings) (audit : List AuditEntry) : List AuditEntry :=
  (cloneActors s audit).flatMap fun u =>
    actorOutput s ((audit.filter (qualifies s)).filter fun e => e.actor == u)

/-- Model of Go `strings.Split(s, sep)` for a one-character separator, on
character lists: splitting the empty string yields one empty field. -/
def splitChar (sep : Char) : List Char → List (List Char)
  | [] => [[]]
  | c :: cs =>
    let rest := splitChar sep cs
    if c == sep then [] :: rest
    else
      match rest with
      | [] => [[c]]
      | r :: rs => (c :: r) :: rs

/-- Model of `strings.Split(*botNameFlag, ",")` in `main` (main.go line
323). -/
def botNamesOfFlag (flag : String) : List String :=
  (splitChar ',' flag.toList).map fun cs => String.mk cs

/-! Concrete configurations and records used by witnesses and
counterexamples.  The universal ignore list is kept nonempty in them
whenever a record must get past the universal tier, because the empty list
compiles to the match-everything regular expression. -/

/-- Configuration with one critical repo `c/x` and one non-critical-only
ignore pattern. -/
def exSettingsCritical : Settings :=
  { org := "g", criticalRepos := ["c/x"], globalIgnoreActions := ["zzz"],
    nonCriticalIgnoreActions := ["hook.create"] }

/-- Record whose `repository` field is the critical repo but whose `repo`
field is empty. -/
def exRecordRepositoryCritical : AuditEntry :=
  { actor := "alice", repository := "c/x", action := "hook.create" }

/-- Record with both repository fields populated, disagreeing. -/
def exRecordBothFields : AuditEntry :=
  { repo := "x", repository := "y/z", org := "g" }

/-- Configuration whose critical set holds the record's `repo` field. -/
def exSettingsC2 : Settings :=
  { org := "g", criticalRepos := ["o/r"], globalIgnoreActions := ["zzz"],
    nonCriticalIgnoreActions := ["hook.create"] }

/-- Configuration declaring the BARE critical name `x`, which the code
qualifies to `g/x` in the critical set. -/
def exSettingsBareCritical : Settings :=
  { org := "g", criticalRepos := ["x"], globalIgnoreActions := ["zzz"],
    nonCriticalIgnoreActions := ["hook.create"] }

/-- Record whose `repo` field carries the bare name `x` of the critical
repo — the qualified identity `g/x` is in the critical set, the bare key
is not. -/
def exRecordBareRepo : AuditEntry :=
  { actor := "alice", repo := "x", org := "g", action := "hook.create" }

/-- Record on the critical repo with a non-critical-only ignored action. -/
def exRecordC2 : AuditEntry :=
  { actor := "alice", repo := "o/r", action := "hook.create" }

/-- Clone-pipeline configuration: short window from -10, long window from 0,
threshold 2. -/
def exSettingsC3 : Settings :=
  { since := -10, maxClonesSince := 0, maxClonedRepos := 2 }

/-- Clone event OLDER than the long-window start of `exSettingsC3`. -/
def exOldClone : AuditEntry :=
  { actor := "m", action := "git.clone", timestamp := -5, repo := "a", repository := "o/a" }

/-- Clone event inside both windows of `exSettingsC3`. -/
def exNewClone : AuditEntry :=
  { actor := "m", action := "git.clone", timestamp := 1, repo := "b", repository := "o/b" }

/-- Configuration whose universal list holds `repo.create`. -/
def exSettingsC4 : Settings :=
  { globalIgnoreActions := ["repo.create"] }

/-- Record with a universally ignored action. -/
def exRecordC4 : AuditEntry :=
  { actor := "alice", action := "repo.create" }

/-- Record with no repository identity at all and a non-critical-only
ignored action (for use with `exSettingsCritical`). -/
def exRecordNoRepo : AuditEntry :=
  { actor := "alice", action := "hook.create" }

/-- Clone-pipeline configuration with threshold 1 and short window from 0. -/
def exSettingsC7 : Settings :=
  { since := 0, maxClonedRepos := 1 }

/-- First clone event of the pair sharing a `repo` field. -/
def exCloneA : AuditEntry :=
  { actor := "m", action := "git.clone", timestamp := 1, repo := "r", repository := "o/r" }

/-- Second clone event of the pair sharing a `repo` field, later timestamp,
different qualified repository. -/
def exCloneB : AuditEntry :=
  { actor := "m", action := "git.clone", timestamp := 2, repo := "r", repository := "o2/r" }

/-- Clone-pipeline configuration with threshold 1 and short window from 5. -/
def exSettingsC8 : Settings :=
  { since := 5, maxClonedRepos := 1 }

/-- Clone event whose timestamp is exactly the short-window start of
`exSettingsC8`. -/
def exCloneBoundary : AuditEntry :=
  { actor := "m", action := "git.clone", timestamp := 5, repo := "r", repository := "o/r" }

/-- Clone event strictly before the short-window start of `exSettingsC8`. -/
def exCloneBefore : AuditEntry :=
  { actor := "m", action := "git.clone", timestamp := 3, repo := "q", repository := "o/q" }

/-- Configuration with an EMPTY universal ignore list. -/
def exSettingsC9 : Settings := {}

/-- An arbitrary non-bot record for the empty-universal-list scenario. -/
def exRecordC9 : AuditEntry :=
  { actor := "alice", action := "repo.destroy" }

/-- Configuration whose bot-name list contains the empty string. -/
def exSettingsC10 : Settings :=
  { botNames := [""], globalIgnoreActions := ["zzz"] }

/-- A private clone record by a human-named actor. -/
def exRecordC10 : AuditEntry :=
  { actor := "alice", action := "git.clone", repo := "r", repository := "o/r" }

/-! Helper lemmas shared by the claim theorems. -/

/-- The empty pattern list compiles to a matcher that accepts everything. -/
theorem matchString_nil (x : String) : matchString [] x = true := rfl

/-- Every element of the critical set contains a slash, so the empty
repository identity is never critical. -/
theorem empty_not_mem_criticalSet (s : Settings) : "" ∉ criticalSet s := by
  intro h
  rw [criticalSet, List.mem_map] at h
  obtain ⟨r, -, hr⟩ := h
  by_cases hc : containsChar r '/'
  · rw [if_pos hc] at hr
    subst hr
    simp [containsChar] at hc
  · rw [if_neg hc] at hr
    have h2 := congrArg String.data hr
    simp [String.data_append] at h2

/-- The critical-set lookup of the empty string is false. -/
theorem criticalSet_contains_empty (s : Settings) : (criticalSet s).contains "" = false := by
  simpa using empty_not_mem_criticalSet s

/-- The reporting walk of a flagged actor equals: restrict to events at or
after the short-window start, then keep the first occurrence per `repo`
field. -/
theorem emitLoop_eq (since : Int) (l : List AuditEntry) (seen : List String) :
    emitLoop since l seen =
      dedupFirstByRepo (l.filter fun e => decide (since ≤ e.timestamp)) seen := by
  induction l generalizing seen with
  | nil => rfl
  | cons e es ih =>
    by_cases hts : e.timestamp < since
    · have hd : (decide (since ≤ e.timestamp)) = false := decide_eq_false (not_le.mpr hts)
      simp only [emitLoop, if_pos hts, List.filter_cons, hd, Bool.false_eq_true, if_false]
      exact ih seen
    · have hd : (decide (since ≤ e.timestamp)) = true := decide_eq_true (not_lt.mp hts)
      simp only [emitLoop, if_neg hts, List.filter_cons, hd, if_true, dedupFirstByRepo]
      by_cases hc : List.contains seen e.repo
      · simp only [if_pos hc]
        exact ih seen
      · simp only [if_neg hc]
        rw [ih]

/-- Every element of the dedup walk's result comes from the input and its
`repo` field was not initially seen. -/
theorem mem_dedupFirstByRepo {x : AuditEntry} :
    ∀ {l : List AuditEntry} {seen : List String},
      x ∈ dedupFirstByRepo l seen → x ∈ l ∧ seen.contains x.repo = false
  | [], _, h => by simp [dedupFirstByRepo] at h
  | e :: es, seen, h => by
    simp only [dedupFirstByRepo] at h
    by_cases hc : List.contains seen e.repo
    · rw [if_pos hc] at h
      obtain ⟨h1, h2⟩ := mem_dedupFirstByRepo h
      exact ⟨List.mem_cons_of_mem _ h1, h2⟩
    · rw [if_neg hc] at h
      rcases List.mem_cons.mp h with rfl | h'
      · exact ⟨List.mem_cons_self _ _, by simpa using hc⟩
      · obtain ⟨h1, h2⟩ := mem_dedupFirstByRepo h'
        rw [List.contains_cons, Bool.or_eq_false_iff] at h2
        exact ⟨List.mem_cons_of_mem _ h1, h2.2⟩

/-- Starting from an empty seen set, the dedup walk emits nothing only for
an empty input. -/
theorem dedupFirstByRepo_nil_iff (l : List AuditEntry) :
    dedupFirstByRepo l [] = [] ↔ l = [] := by
  cases l with
  | nil => simp [dedupFirstByRepo]
  | cons e es => simp [dedupFirstByRepo]

/-- The first element of the input whose `repo` field equals a given
never-seen value is emitted by the dedup walk. -/
theorem find?_mem_dedupFirstByRepo {e : AuditEntry} :
    ∀ {l : List AuditEntry} {seen : List String},
      l.find? (fun x => x.repo == e.repo) = some e →
      seen.contains e.repo = false →
      e ∈ dedupFirstByRepo l seen
  | [], _, h, _ => by simp at h
  | x :: xs, seen, h, hs => by
    by_cases hx : (x.repo == e.repo) = true
    · simp only [List.find?_cons, hx] at h
      injection h with h
      subst h
      simp only [dedupFirstByRepo]
      rw [if_neg (by simpa using hs)]
      exact List.mem_cons_self _ _
    · have hx' : (x.repo == e.repo) = false := by simpa using hx
      simp only [List.find?_cons, hx'] at h
      have hne : e.repo ≠ x.repo := fun hEq => hx (by simp [hEq])
      simp only [dedupFirstByRepo]
      by_cases hc : List.contains seen x.repo
      · rw [if_pos hc]
        exact find?_mem_dedupFirstByRepo h hs
      · rw [if_neg hc]
        refine List.mem_cons_of_mem _ (find?_mem_dedupFirstByRepo h ?_)
        rw [List.contains_cons, Bool.or_eq_false_iff]
        exact ⟨by simpa using hne, hs⟩

/-- The dedup walk's result never repeats a `repo` field value. -/
theorem pairwise_dedupFirstByRepo :
    ∀ (l : List AuditEntry) (seen : List String),
      (dedupFirstByRepo l seen).Pairwise fun a b => a.repo ≠ b.repo
  | [], _ => by simp [dedupFirstByRepo]
  | e :: es, seen => by
    simp only [dedupFirstByRepo]
    by_cases hc : List.contains seen e.repo
    · rw [if_pos hc]
      exact pairwise_dedupFirstByRepo es seen
    · rw [if_neg hc]
      refine List.Pairwise.cons ?_ (pairwise_dedupFirstByRepo es (e.repo :: seen))
      intro b hb hEq
      have h2 := (mem_dedupFirstByRepo hb).2
      rw [List.contains_cons, Bool.or_eq_false_iff, beq_eq_false_iff_ne] at h2
      exact h2.1 hEq.symm

/-- Everything the reporting walk emits comes from the input and lies at or
after the short-window start. -/
theorem mem_emitLoop {x : AuditEntry} {since : Int} {l : List AuditEntry} {seen : List String}
    (h : x ∈ emitLoop since l seen) : since ≤ x.timestamp ∧ x ∈ l := by
  rw [emitLoop_eq] at h
  obtain ⟨h1, -⟩ := mem_dedupFirstByRepo h
  rw [List.mem_filter] at h1
  exact ⟨by simpa using h1.2, h1.1⟩

/-- A bot-name list containing the empty string classifies every actor as a
bot. -/
theorem isBot_of_empty_mem {pats : List String} (h : "" ∈ pats) (x : String) :
    isBot x pats = true := by
  rw [isBot, List.any_eq_true]
  exact ⟨"", h, by simp [hasSuffix, List.isSuffixOf]⟩

/-! Claim theorems. -/

/-- C1 counterexample: the claim that both the classifier's criticality
lookup and the formatter's location follow "prefer `repository`, fall back
to `repo`, qualify bare names with the run's org" is false.  At a record
with both fields populated the formatter produces `g/x` (preferring `repo`)
while the spec's formula produces `y/z`; and a record whose `repository`
field is the configured critical repo is still suppressed by a
non-critical-only pattern, because the classifier looks up only the raw
`repo` field. -/
theorem repoIdentity_divergence_cex :
    auditMsgLocation exRecordBothFields = "g/x" ∧
    specRepoIdentity "g" exRecordBothFields = "y/z" ∧
    auditMsgLocation exRecordBothFields ≠ specRepoIdentity "g" exRecordBothFields ∧
    classify exSettingsCritical exRecordRepositoryCritical = Classification.suppressedNonCritical ∧
    specRepoIdentity exSettingsCritical.org exRecordRepositoryCritical = "c/x" ∧
    (criticalSet exSettingsCritical).contains "c/x" = true ∧
    matchString exSettingsCritical.globalIgnoreActions exRecordRepositoryCritical.action = false := by
  decide

/-- C1 (amended): the classifier's criticality decision ignores the
`repository` field entirely — it is invariant under replacing it — and the
formatter's location prefers `repo`: when `repo` is nonempty the location is
likewise invariant under replacing `repository`.  The two identities are
therefore not computed as the spec's 4.1(b) formula. -/
theorem classify_ignores_repository_field (s : Settings) (a : AuditEntry) (rep : String) :
    classify s { a with repository := rep } = classify s a ∧
    (a.repo ≠ "" →
      auditMsgLocation { a with repository := rep } = auditMsgLocation a) := by
  refine ⟨rfl, fun h => ?_⟩
  have hb : (a.repo == "") = false := by simpa using h
  simp only [auditMsgLocation, hb, Bool.false_eq_true, if_false]

/-- C1 amended witness at a concrete record. -/
theorem classify_ignores_repository_field_witness :
    auditMsgLocation { exRecordBothFields with repository := "zz" }
      = auditMsgLocation exRecordBothFields :=
  (classify_ignores_repository_field exSettingsCritical exRecordBothFields "zz").2 (by decide)

/-- C2 counterexample: a record whose repository identity IS in the
critical set can nevertheless be suppressed by a pattern appearing only in
the non-critical list, because the classifier's lookup key is the raw
`repo` field.  Two concrete failure modes: a record carrying the critical
repo only in the `repository` field (`repo` empty), and a record whose
`repo` field is the BARE name of a configured bare critical repo (the set
holds only the qualified `g/x`, so the lookup of `x` misses).  In both, the
action misses the universal matcher and hits only the non-critical one, and
the classifier returns suppressedNonCritical. -/
theorem critical_repository_suppressed_cex :
    exRecordRepositoryCritical.repository = "c/x" ∧
    "c/x" ∈ criticalSet exSettingsCritical ∧
    matchString exSettingsCritical.globalIgnoreActions
      exRecordRepositoryCritical.action = false ∧
    matchString exSettingsCritical.nonCriticalIgnoreActions
      exRecordRepositoryCritical.action = true ∧
    classify exSettingsCritical exRecordRepositoryCritical
      = Classification.suppressedNonCritical ∧
    exRecordBareRepo.repo = "x" ∧
    specRepoIdentity exSettingsBareCritical.org exRecordBareRepo = "g/x" ∧
    "g/x" ∈ criticalSet exSettingsBareCritical ∧
    matchString exSettingsBareCritical.globalIgnoreActions
      exRecordBareRepo.action = false ∧
    matchString exSettingsBareCritical.nonCriticalIgnoreActions
      exRecordBareRepo.action = true ∧
    classify exSettingsBareCritical exRecordBareRepo
      = Classification.suppressedNonCritical := by
  decide

/-- C2 (amended): the protection the code actually grants is keyed on the
raw `repo` field — only a record whose `repo` field is literally a key of
the qualified critical set escapes the non-critical tier: for such records
a pattern appearing only in the non-critical list never suppresses them.
Records that are critical only via the `repository` field or via a bare
`repo` name are not protected (see the counterexample). -/
theorem critical_repo_never_suppressed_nonCritical (s : Settings) (a : AuditEntry)
    (h : (criticalSet s).contains a.repo = true) :
    classify s a ≠ Classification.suppressedNonCritical := by
  unfold classify
  intro hc
  by_cases hg : matchString s.globalIgnoreActions a.action = true
  · rw [if_pos hg] at hc
    cases hc
  · rw [if_neg hg] at hc
    rw [h] at hc
    simp only [Bool.not_true, Bool.false_and] at hc
    rw [if_neg (by simp)] at hc
    by_cases hb : isBot a.actor s.botNames = true
    · rw [if_pos hb] at hc
      cases hc
    · rw [if_neg hb] at hc
      cases hc

/-- C2 witness at a concrete critical record. -/
theorem critical_repo_never_suppressed_nonCritical_witness :
    classify exSettingsC2 exRecordC2 ≠ Classification.suppressedNonCritical :=
  critical_repo_never_suppressed_nonCritical exSettingsC2 exRecordC2 (by decide)

/-- C4: a universal-ignore match suppresses the record at the universal
tier for EVERY critical-repo configuration: criticality never rescues a
record from the universal tier, which is decided first. -/
theorem universal_ignore_terminal (s : Settings) (a : AuditEntry)
    (h : matchString s.globalIgnoreActions a.action = true) :
    ∀ crit : List String,
      classify { s with criticalRepos := crit } a = Classification.suppressedUniversal := by
  intro crit
  unfold classify
  split
  · rfl
  · rename_i hg
    exact absurd h hg

/-- C4 witness at a concrete universally ignored record. -/
theorem universal_ignore_terminal_witness :
    classify { exSettingsC4 with criticalRepos := ["g/r"] } exRecordC4
      = Classification.suppressedUniversal :=
  universal_ignore_terminal exSettingsC4 exRecordC4 (by decide) ["g/r"]

/-- C6 counterexample: a record with NO repository identity whose action is
not universally ignored does not pass through to alert — it is suppressed
by the non-critical tier — contradicting the claim that such a record is
evaluated only against the universal tier. -/
theorem empty_repo_nonCritical_suppression_cex :
    exRecordNoRepo.repo = "" ∧ exRecordNoRepo.repository = "" ∧
    matchString exSettingsCritical.globalIgnoreActions exRecordNoRepo.action = false ∧
    isBot exRecordNoRepo.actor exSettingsCritical.botNames = false ∧
    classify exSettingsCritical exRecordNoRepo = Classification.suppressedNonCritical := by
  decide

/-- C6 (amended): a record with no resolvable repository identity is never
protected by criticality — the empty identity is never in the critical set
— and is evaluated against BOTH ignore tiers: it is suppressed at the
non-critical tier exactly when the universal matcher misses and the
non-critical matcher hits, and it reaches alert exactly when neither
matcher hits and the actor is not a bot. -/
theorem empty_repo_classify_characterization (s : Settings) (a : AuditEntry)
    (h : a.repo = "") :
    (criticalSet s).contains a.repo = false ∧
    (classify s a = Classification.suppressedNonCritical ↔
      matchString s.globalIgnoreActions a.action = false ∧
      matchString s.nonCriticalIgnoreActions a.action = true) ∧
    (classify s a = Classification.alert ↔
      matchString s.globalIgnoreActions a.action = false ∧
      matchString s.nonCriticalIgnoreActions a.action = false ∧
      isBot a.actor s.botNames = false) := by
  have hce : (criticalSet s).contains a.repo = false := by
    rw [h]
    exact criticalSet_contains_empty s
  refine ⟨hce, ?_, ?_⟩ <;>
  · simp only [classify, hce, Bool.not_false, Bool.true_and]
    by_cases hg : matchString s.globalIgnoreActions a.action = true <;>
      by_cases hn : matchString s.nonCriticalIgnoreActions a.action = true <;>
        by_cases hb : isBot a.actor s.botNames = true <;>
          simp [hg, hn, hb]

/-- C6 amended witness at a concrete record with no repository identity. -/
theorem empty_repo_classify_characterization_witness :
    (criticalSet exSettingsCritical).contains exRecordNoRepo.repo = false :=
  (empty_repo_classify_characterization exSettingsCritical exRecordNoRepo rfl).1

/-- C9: an empty universal ignore list compiles (via `strings.Join` with
`|`) to the empty regular expression, which matches every action, so every
record is suppressed at the universal tier and the web pipeline yields zero
alerts for any input. -/
theorem empty_universal_list_suppresses_all (s : Settings) (audit : List AuditEntry)
    (h : s.globalIgnoreActions = []) :
    (∀ x : String, matchString s.globalIgnoreActions x = true) ∧
    (∀ a : AuditEntry, classify s a = Classification.suppressedUniversal) ∧
    webEventsFilter s audit = [] := by
  have hm : ∀ x : String, matchString s.globalIgnoreActions x = true := by
    intro x
    rw [h]
    rfl
  have hc : ∀ a : AuditEntry, classify s a = Classification.suppressedUniversal := by
    intro a
    unfold classify
    split
    · rfl
    · rename_i hg
      exact absurd (hm a.action) hg
  refine ⟨hm, hc, ?_⟩
  rw [webEventsFilter, List.filter_eq_nil_iff]
  intro a _
  simp [hc a]

/-- C9 witness at a concrete configuration with an empty universal list. -/
theorem empty_universal_list_suppresses_all_witness :
    classify exSettingsC9 exRecordC9 = Classification.suppressedUniversal ∧
    webEventsFilter exSettingsC9 [exRecordC9] = [] :=
  ⟨(empty_universal_list_suppresses_all exSettingsC9 [exRecordC9] rfl).2.1 exRecordC9,
   (empty_universal_list_suppresses_all exSettingsC9 [exRecordC9] rfl).2.2⟩

/-- C10: the empty bot-name flag splits to a list holding only the empty
string; the empty string is a suffix of every actor identity, so every
actor is a bot and both pipelines produce nothing on any input. -/
theorem empty_bot_pattern_suppresses_all (s : Settings) (audit : List AuditEntry)
    (h : "" ∈ s.botNames) :
    botNamesOfFlag "" = [""] ∧
    (∀ x : String, isBot x s.botNames = true) ∧
    webEventsFilter s audit = [] ∧
    cloneEventsOutput s audit = [] := by
  have hb : ∀ x : String, isBot x s.botNames = true := isBot_of_empty_mem h
  refine ⟨rfl, hb, ?_, ?_⟩
  · rw [webEventsFilter, List.filter_eq_nil_iff]
    intro a _
    have hna : classify s a ≠ Classification.alert := by
      unfold classify
      split
      · intro hx
        cases hx
      · split
        · intro hx
          cases hx
        · rw [if_pos (hb a.actor)]
          intro hx
          cases hx
    simp [hna]
  · have hq : ∀ a : AuditEntry, qualifies s a = false := by
      intro a
      unfold qualifies
      rw [hb a.actor]
      simp
    have hf : audit.filter (qualifies s) = [] :=
      List.filter_eq_nil_iff.mpr fun a _ => by simp [hq a]
    unfold cloneEventsOutput cloneActors
    rw [hf]
    rfl

/-- C10 witness at a concrete configuration with an empty bot pattern. -/
theorem empty_bot_pattern_suppresses_all_witness :
    isBot "alice" exSettingsC10.botNames = true ∧
    webEventsFilter exSettingsC10 [exRecordC10] = [] ∧
    cloneEventsOutput exSettingsC10 [exRecordC10] = [] :=
  ⟨(empty_bot_pattern_suppresses_all exSettingsC10 [exRecordC10] (by decide)).2.1 "alice",
   (empty_bot_pattern_suppresses_all exSettingsC10 [exRecordC10] (by decide)).2.2.1,
   (empty_bot_pattern_suppresses_all exSettingsC10 [exRecordC10] (by decide)).2.2.2⟩

/-- C3 counterexample: at a configuration whose long window starts at 0, a
clone event with timestamp -5 (older than the long-window start) still
contributes to the actor's distinct-repository count — without it the same
actor is below threshold and nothing is emitted — and the old event itself
appears in the output. -/
theorem long_window_no_defensive_drop_cex :
    exOldClone.timestamp < exSettingsC3.maxClonesSince ∧
    exOldClone ∈ cloneEventsOutput exSettingsC3 [exOldClone, exNewClone] ∧
    cloneEventsOutput exSettingsC3 [exNewClone] = [] := by
  decide

/-- C3 (amended): the clone aggregator applies no filter of its own against
the long-window start — its output is invariant under changing
`MaxClonesSince` — so records older than the long-window start that the
source yields still contribute to the distinct-repository count; emitted
events are bounded below only by the SHORT-window start. -/
theorem cloneOutput_independent_of_long_window (s : Settings) (audit : List AuditEntry)
    (t : Int) :
    cloneEventsOutput { s with maxClonesSince := t } audit = cloneEventsOutput s audit ∧
    ∀ e ∈ cloneEventsOutput s audit, s.since ≤ e.timestamp := by
  refine ⟨rfl, ?_⟩
  intro e he
  unfold cloneEventsOutput at he
  rw [List.mem_flatMap] at he
  obtain ⟨u, -, he⟩ := he
  unfold actorOutput at he
  split at he
  · exact (mem_emitLoop he).1
  · cases he

/-- C3 amended witness at a concrete configuration and audit list. -/
theorem cloneOutput_independent_of_long_window_witness :
    cloneEventsOutput { exSettingsC3 with maxClonesSince := 99 } [exOldClone, exNewClone]
        = cloneEventsOutput exSettingsC3 [exOldClone, exNewClone] ∧
    exSettingsC3.since ≤ exNewClone.timestamp :=
  ⟨(cloneOutput_independent_of_long_window exSettingsC3 [exOldClone, exNewClone] 99).1,
   (cloneOutput_independent_of_long_window exSettingsC3 [exOldClone, exNewClone] 99).2
     exNewClone (by decide)⟩

/-- C5: an actor produces output records iff the count of distinct
final-path-segment repository identities of their clone events reaches the
threshold AND some event lies in the short window; below threshold nothing
is emitted; and two qualified names sharing a base segment (`org/upstream`,
`org2/upstream`) normalize to the same identity. -/
theorem flagged_iff_threshold (s : Settings) (events : List AuditEntry) :
    (actorOutput s events ≠ [] ↔
      (s.maxClonedRepos ≤ (distinctBaseCount events : Int) ∧
        ∃ e ∈ events, s.since ≤ e.timestamp)) ∧
    filepathBase "org/upstream" = filepathBase "org2/upstream" := by
  constructor
  · unfold actorOutput
    split
    · rename_i hth
      rw [emitLoop_eq]
      constructor
      · intro hne
        refine ⟨hth, ?_⟩
        have hf : (events.filter fun e => decide (s.since ≤ e.timestamp)) ≠ [] := by
          intro h0
          exact hne (by rw [h0]; rfl)
        obtain ⟨e, he⟩ := List.exists_mem_of_ne_nil _ hf
        rw [List.mem_filter] at he
        exact ⟨e, he.1, by simpa using he.2⟩
      · rintro ⟨-, e, he, hts⟩ h0
        have hmem : e ∈ events.filter fun x => decide (s.since ≤ x.timestamp) :=
          List.mem_filter.mpr ⟨he, by simpa using hts⟩
        rw [dedupFirstByRepo_nil_iff] at h0
        rw [h0] at hmem
        cases hmem
    · rename_i hth
      simp [hth]
  · rfl

/-- C7: for a flagged actor the reporting walk equals: restrict to events at
or after the short-window start, then keep only the FIRST event per bare
`repo` name; consequently the output never repeats a `repo` name. -/
theorem flagged_output_dedup_by_repo_first (s : Settings) (events : List AuditEntry)
    (h : s.maxClonedRepos ≤ (distinctBaseCount events : Int)) :
    actorOutput s events
        = dedupFirstByRepo (events.filter fun e => decide (s.since ≤ e.timestamp)) [] ∧
    (actorOutput s events).Pairwise fun x y => x.repo ≠ y.repo := by
  have h1 : actorOutput s events = emitLoop s.since events [] := by
    unfold actorOutput
    rw [if_pos h]
  rw [h1, emitLoop_eq]
  exact ⟨rfl, pairwise_dedupFirstByRepo _ _⟩

/-- C7 witness: a flagged actor with two in-window events sharing a `repo`
name. -/
theorem flagged_output_dedup_by_repo_first_witness :
    actorOutput exSettingsC7 [exCloneA, exCloneB]
        = dedupFirstByRepo
            ([exCloneA, exCloneB].filter fun e => decide (exSettingsC7.since ≤ e.timestamp)) [] ∧
    (actorOutput exSettingsC7 [exCloneA, exCloneB]).Pairwise fun x y => x.repo ≠ y.repo :=
  flagged_output_dedup_by_repo_first exSettingsC7 [exCloneA, exCloneB] (by decide)

/-- C8: for a flagged actor, an event whose timestamp is exactly the
short-window start is included in the output (as the first in-window event
carrying its `repo` name), and an event strictly before the short-window
start is never included. -/
theorem short_window_boundary (s : Settings) (events : List AuditEntry) (e : AuditEntry)
    (hflag : s.maxClonedRepos ≤ (distinctBaseCount events : Int))
    (hts : e.timestamp = s.since)
    (hfirst : (events.filter fun x => decide (s.since ≤ x.timestamp)).find?
        (fun x => x.repo == e.repo) = some e) :
    e ∈ actorOutput s events ∧
    ∀ e' : AuditEntry, e'.timestamp < s.since → e' ∉ actorOutput s events := by
  have h1 : actorOutput s events = emitLoop s.since events [] := by
    unfold actorOutput
    rw [if_pos hflag]
  have hin : e ∈ actorOutput s events := by
    rw [h1, emitLoop_eq]
    exact find?_mem_dedupFirstByRepo hfirst rfl
  refine ⟨hin, ?_⟩
  intro e' hlt hmem
  rw [h1] at hmem
  have := hts
  exact absurd (mem_emitLoop hmem).1 (not_le.mpr hlt)

/-- C8 witness: a flagged actor with one event exactly at the boundary and
one strictly before it. -/
theorem short_window_boundary_witness :
    exCloneBoundary ∈ actorOutput exSettingsC8 [exCloneBoundary, exCloneBefore] ∧
    exCloneBefore ∉ actorOutput exSettingsC8 [exCloneBoundary, exCloneBefore] :=
  ⟨(short_window_boundary exSettingsC8 [exCloneBoundary, exCloneBefore] exCloneBoundary
      (by decide) (by decide) (by decide)).1,
   (short_window_boundary exSettingsC8 [exCloneBoundary, exCloneBefore] exCloneBoundary
      (by decide) (by decide) (by decide)).2 exCloneBefore (by decide)⟩

end GithubAuditAlerter
